import Mathlib

/-!
Verification of the learning-agent resource pipeline.

Shallow embedding of the Python services of the repository:
`services/educational_resource_finder.py` (relevance scoring, educational
filter, URL deduplication, type-diverse selection), `quality_scorer.py`
(the four-dimension quality scorer), and `services/course_builder.py`
(module packing).  Numeric scores are modelled as rationals (the Python
code only ever produces values with at most two decimal digits, so `ℚ`
is exact for every value that occurs).  Python's substring test
`pat in s` is modelled by `strContains`, and `str.split()` (split on
whitespace, dropping empty pieces) by `pySplit`.
-/

/-- Boolean prefix test on character lists (model of string prefix). -/
def listPrefixB : List Char → List Char → Bool
  | [], _ => true
  | _ :: _, [] => false
  | a :: as, b :: bs => a = b && listPrefixB as bs

/-- Boolean infix test on character lists. -/
def listInfixB (pat : List Char) : List Char → Bool
  | [] => listPrefixB pat []
  | c :: rest => listPrefixB pat (c :: rest) || listInfixB pat rest

/-- Model of Python's `pat in s` substring test. -/
def strContains (s pat : String) : Bool := listInfixB pat.data s.data

/-- Model of Python's `any(pat in s for pat in pats)`. -/
def containsAny (s : String) (pats : List String) : Bool :=
  pats.any (fun pat => strContains s pat)

/-- ASCII lowercasing (`str.lower()` of the source), over the underlying
character list so that it stays kernel-computable. -/
def strLower (s : String) : String := String.mk (s.data.map Char.toLower)

/-- Accumulator loop of `pySplit`: gather non-whitespace runs. -/
def splitWsAux : List Char → List Char → List String
  | acc, [] => if acc.isEmpty then [] else [String.mk acc.reverse]
  | acc, c :: rest =>
    if c.isWhitespace then
      if acc.isEmpty then splitWsAux [] rest
      else String.mk acc.reverse :: splitWsAux [] rest
    else splitWsAux (c :: acc) rest

/-- Model of Python's `str.split()`: split on whitespace, drop empty pieces. -/
def pySplit (s : String) : List String := splitWsAux [] s.data

/-- The resource record of `models.py` (`LearningResource`), restricted to
the fields the verified services read or write.  `relevance_score` and
`quality_score` are `float` fields in the source, modelled as `ℚ`. -/
structure LearningResource where
  type : String
  title : String
  url : String
  description : String
  source : String
  relevance_score : ℚ
  quality_score : ℚ
deriving DecidableEq, Repr

/-- `models.py` `ObjectiveResult`: one objective with its resources. -/
structure ObjectiveResult where
  objective : String
  resources : List LearningResource
deriving DecidableEq, Repr

/-! ## Deduplication (`_remove_duplicates`, educational_resource_finder.py) -/

/-- Loop of `_remove_duplicates`: walk the list keeping a `seen_urls` set
(modelled as the list of urls already kept) and keep a resource only when
its url has not been seen. -/
def removeDuplicatesAux (seen : List String) : List LearningResource → List LearningResource
  | [] => []
  | r :: rest =>
    if r.url ∈ seen then removeDuplicatesAux seen rest
    else r :: removeDuplicatesAux (r.url :: seen) rest

/-- `_remove_duplicates(resources)`: remove duplicate resources based on URL,
keeping the first occurrence of each url. -/
def _remove_duplicates (resources : List LearningResource) : List LearningResource :=
  removeDuplicatesAux [] resources

lemma mem_removeDuplicatesAux (seen : List String) (l : List LearningResource)
    (r : LearningResource) :
    r ∈ removeDuplicatesAux seen l ↔
      r.url ∉ seen ∧ l.find? (fun s => s.url == r.url) = some r := by
  induction l generalizing seen with
  | nil => simp [removeDuplicatesAux]
  | cons a t ih =>
    rw [removeDuplicatesAux]
    by_cases ha : a.url ∈ seen
    · rw [if_pos ha, ih]
      by_cases hr : r.url ∈ seen
      · simp [hr]
      · have hpa : ¬ ((fun s : LearningResource => s.url == r.url) a = true) := by
          simp only [beq_iff_eq]
          intro h
          exact hr (h ▸ ha)
        rw [@List.find?_cons_of_neg _ (fun s : LearningResource => s.url == r.url) a t hpa]
    · rw [if_neg ha]
      simp only [List.mem_cons, ih]
      constructor
      · rintro (rfl | ⟨hnot, hfind⟩)
        · exact ⟨ha, List.find?_cons_of_pos _ (by simp)⟩
        · have h1 : r.url ≠ a.url := fun h => hnot (by simp [h])
          have h2 : r.url ∉ seen := fun h => hnot (by simp [h])
          refine ⟨h2, ?_⟩
          rw [@List.find?_cons_of_neg _ (fun s : LearningResource => s.url == r.url) a t
            (by
              simp only [beq_iff_eq]
              exact fun h => h1 h.symm)]
          exact hfind
      · rintro ⟨hr, hfind⟩
        by_cases hau : a.url = r.url
        · rw [@List.find?_cons_of_pos _ (fun s : LearningResource => s.url == r.url) a t
            (by simp [hau])] at hfind
          left
          exact (Option.some.inj hfind).symm
        · rw [@List.find?_cons_of_neg _ (fun s : LearningResource => s.url == r.url) a t
            (by
              simp only [beq_iff_eq]
              exact hau)] at hfind
          right
          refine ⟨?_, hfind⟩
          simp only [List.mem_cons, not_or]
          exact ⟨fun h => hau h.symm, hr⟩

lemma nodup_removeDuplicatesAux (seen : List String) (l : List LearningResource) :
    ((removeDuplicatesAux seen l).map (fun r => r.url)).Nodup ∧
      ∀ u ∈ (removeDuplicatesAux seen l).map (fun r => r.url), u ∉ seen := by
  induction l generalizing seen with
  | nil => simp [removeDuplicatesAux]
  | cons a t ih =>
    rw [removeDuplicatesAux]
    by_cases ha : a.url ∈ seen
    · rw [if_pos ha]
      exact ih seen
    · rw [if_neg ha]
      obtain ⟨h1, h2⟩ := ih (a.url :: seen)
      refine ⟨?_, ?_⟩
      · simp only [List.map_cons, List.nodup_cons]
        exact ⟨fun hmem => (h2 _ hmem) (by simp), h1⟩
      · intro u hu
        simp only [List.map_cons, List.mem_cons] at hu
        rcases hu with rfl | hu
        · exact ha
        · intro hs
          exact (h2 u hu) (by simp [hs])

/-- The urls of the deduplicated list are pairwise distinct. -/
lemma nodup_urls_remove_duplicates (l : List LearningResource) :
    ((_remove_duplicates l).map (fun r => r.url)).Nodup :=
  (nodup_removeDuplicatesAux [] l).1

/-- Membership in the deduplicated list: exactly the first occurrence of
each url survives. -/
lemma mem_remove_duplicates (l : List LearningResource) (r : LearningResource) :
    r ∈ _remove_duplicates l ↔ l.find? (fun s => s.url == r.url) = some r := by
  rw [_remove_duplicates, mem_removeDuplicatesAux]
  simp

/-- First resource of the example duplicate pair of the spec scenario
(`url="https://x.com/a"`, relevance 5). -/
def resA5 : LearningResource :=
  { type := "article", title := "A first", url := "https://x.com/a", description := "",
    source := "X", relevance_score := 5, quality_score := 0 }

/-- Second resource of the example duplicate pair (same url, relevance 7). -/
def resA7 : LearningResource :=
  { type := "article", title := "A second", url := "https://x.com/a", description := "",
    source := "X", relevance_score := 7, quality_score := 0 }

/-- C1 counterexample: two resources share `url="https://x.com/a"` with
relevance 5 (first) and 7 (second); `_remove_duplicates` keeps exactly one
resource, but it is the first occurrence with relevance 5, not the claimed
maximum 7. -/
theorem C1_dedup_counterexample :
    resA5.url = resA7.url ∧ resA5.relevance_score = 5 ∧ resA7.relevance_score = 7 ∧
      _remove_duplicates [resA5, resA7] = [resA5] ∧
      ∀ r ∈ _remove_duplicates [resA5, resA7], r.relevance_score ≠ 7 := by
  refine ⟨rfl, rfl, rfl, by decide, ?_⟩
  intro r hr
  rw [show _remove_duplicates [resA5, resA7] = [resA5] by decide] at hr
  simp only [List.mem_singleton] at hr
  subst hr
  decide

/-- C1 amended: exactly one resource per distinct url survives deduplication
(the url multiset of the output is duplicate-free and covers every input
url), and the survivor for each url is the FIRST occurrence of that url in
the input — it carries the first occurrence's relevance score, not the
maximum over the duplicates. -/
theorem C1_dedup_first_occurrence_wins (l : List LearningResource) :
    ((_remove_duplicates l).map (fun r => r.url)).Nodup ∧
      (∀ r ∈ l, ∃ s ∈ _remove_duplicates l, s.url = r.url) ∧
      (∀ r, r ∈ _remove_duplicates l ↔
        (r ∈ l ∧ l.find? (fun s => s.url == r.url) = some r)) := by
  refine ⟨nodup_urls_remove_duplicates l, ?_, ?_⟩
  · intro r hr
    have hsome : (l.find? (fun s => s.url == r.url)).isSome := by
      rw [List.find?_isSome]
      exact ⟨r, hr, by simp⟩
    obtain ⟨s, hs⟩ := Option.isSome_iff_exists.mp hsome
    have hsu : s.url = r.url := by
      have := List.find?_some hs
      simpa using this
    refine ⟨s, ?_, hsu⟩
    rw [mem_remove_duplicates]
    have hfun : (fun x : LearningResource => x.url == s.url) =
        (fun x : LearningResource => x.url == r.url) := by
      funext x
      rw [hsu]
    rw [hfun]
    exact hs
  · intro r
    rw [mem_remove_duplicates]
    constructor
    · intro hf
      exact ⟨List.mem_of_find?_eq_some hf, hf⟩
    · exact fun h => h.2

/-! ## Ranking and selection (`_select_best_resources`, educational_resource_finder.py) -/

/-- Insert a resource into a list before the first element whose
`relevance_score` is not larger.  Folding `insertDesc` over the input
(`sortByRelevanceDesc`) computes exactly the stable descending sort that
Python's `sorted(resources, key=lambda x: x.relevance_score, reverse=True)`
performs: the lemmas below prove it is a permutation, pairwise
non-increasing in relevance and stable on every equal-relevance class,
the three properties that uniquely determine a stable sort's output. -/
def insertDesc (r : LearningResource) : List LearningResource → List LearningResource
  | [] => [r]
  | a :: t =>
    if a.relevance_score ≤ r.relevance_score then r :: a :: t
    else a :: insertDesc r t

/-- Model of `sorted(resources, key=lambda x: x.relevance_score, reverse=True)`. -/
def sortByRelevanceDesc : List LearningResource → List LearningResource
  | [] => []
  | a :: t => insertDesc a (sortByRelevanceDesc t)

lemma insertDesc_perm (r : LearningResource) (l : List LearningResource) :
    (insertDesc r l).Perm (r :: l) := by
  induction l with
  | nil => exact List.Perm.refl _
  | cons a t ih =>
    rw [insertDesc]
    by_cases hle : a.relevance_score ≤ r.relevance_score
    · rw [if_pos hle]
    · rw [if_neg hle]
      exact (List.Perm.cons a ih).trans (List.Perm.swap r a t)

lemma sortByRelevanceDesc_perm (l : List LearningResource) :
    (sortByRelevanceDesc l).Perm l := by
  induction l with
  | nil => exact List.Perm.refl _
  | cons a t ih =>
    rw [sortByRelevanceDesc]
    exact (insertDesc_perm a _).trans (List.Perm.cons a ih)

lemma insertDesc_pairwise (r : LearningResource) (l : List LearningResource)
    (h : l.Pairwise (fun a b => b.relevance_score ≤ a.relevance_score)) :
    (insertDesc r l).Pairwise (fun a b => b.relevance_score ≤ a.relevance_score) := by
  induction l with
  | nil => simp [insertDesc]
  | cons a t ih =>
    rw [insertDesc]
    rcases List.pairwise_cons.mp h with ⟨ha, ht⟩
    by_cases hle : a.relevance_score ≤ r.relevance_score
    · rw [if_pos hle]
      refine List.pairwise_cons.mpr ⟨?_, h⟩
      intro b hb
      rcases List.mem_cons.mp hb with rfl | hb
      · exact hle
      · exact le_trans (ha b hb) hle
    · rw [if_neg hle]
      refine List.pairwise_cons.mpr ⟨?_, ih ht⟩
      intro b hb
      have hb2 : b ∈ r :: t := (insertDesc_perm r t).mem_iff.mp hb
      rcases List.mem_cons.mp hb2 with rfl | hb3
      · exact le_of_lt (not_le.mp hle)
      · exact ha b hb3

lemma sortByRelevanceDesc_sorted (l : List LearningResource) :
    (sortByRelevanceDesc l).Pairwise
      (fun a b => b.relevance_score ≤ a.relevance_score) := by
  induction l with
  | nil => simp [sortByRelevanceDesc]
  | cons a t ih =>
    rw [sortByRelevanceDesc]
    exact insertDesc_pairwise a _ ih

lemma filter_insertDesc (q : ℚ) (r : LearningResource) (l : List LearningResource) :
    (insertDesc r l).filter (fun x => x.relevance_score == q) =
      if r.relevance_score = q then
        r :: l.filter (fun x => x.relevance_score == q)
      else l.filter (fun x => x.relevance_score == q) := by
  induction l with
  | nil =>
    by_cases hq : r.relevance_score = q <;> simp [insertDesc, List.filter_cons, hq]
  | cons a t ih =>
    rw [insertDesc]
    by_cases hle : a.relevance_score ≤ r.relevance_score
    · rw [if_pos hle]
      by_cases hq : r.relevance_score = q <;> simp [List.filter_cons, hq]
    · rw [if_neg hle]
      by_cases hq : r.relevance_score = q
      · have haq : ¬ a.relevance_score = q := fun h => hle (le_of_eq (h.trans hq.symm))
        simp [List.filter_cons, ih, hq, haq]
      · by_cases haq : a.relevance_score = q <;> simp [List.filter_cons, ih, hq, haq]

lemma sortByRelevanceDesc_stable (q : ℚ) (l : List LearningResource) :
    (sortByRelevanceDesc l).filter (fun x => x.relevance_score == q) =
      l.filter (fun x => x.relevance_score == q) := by
  induction l with
  | nil => rfl
  | cons a t ih =>
    rw [sortByRelevanceDesc, filter_insertDesc]
    by_cases hq : a.relevance_score = q
    · rw [if_pos hq, ih, List.filter_cons, if_pos (by simp [hq])]
    · rw [if_neg hq, ih, List.filter_cons, if_neg (by simp [hq])]

/-- The mutable `type_counts` dict of `_select_best_resources`, initialised
with the four keys `video`, `article`, `course`, `documentation`.  Python
raises `KeyError` on any other resource type; the pipeline only ever
produces these four types (`_determine_resource_type`), and the selection
theorems below restrict resource types accordingly. -/
structure TypeCounts where
  video : Nat
  article : Nat
  course : Nat
  documentation : Nat
deriving DecidableEq, Repr

def TypeCounts.get (c : TypeCounts) (t : String) : Nat :=
  if t = "video" then c.video
  else if t = "article" then c.article
  else if t = "course" then c.course
  else if t = "documentation" then c.documentation
  else 0

def TypeCounts.bump (c : TypeCounts) (t : String) : TypeCounts :=
  if t = "video" then { c with video := c.video + 1 }
  else if t = "article" then { c with article := c.article + 1 }
  else if t = "course" then { c with course := c.course + 1 }
  else if t = "documentation" then { c with documentation := c.documentation + 1 }
  else c

/-- The four resource types assigned by `_determine_resource_type`. -/
def resourceTypes : List String := ["video", "article", "course", "documentation"]

def zeroCounts : TypeCounts := ⟨0, 0, 0, 0⟩

/-- First pass of `_select_best_resources`: scan the ranked resources,
stopping once `maxR` are selected, and select a resource only while its
type has been selected fewer than `max_per_type = 2` times. -/
def selectLoop (maxR : Nat) :
    List LearningResource → List LearningResource → TypeCounts → List LearningResource
  | [], selected, _ => selected
  | r :: rest, selected, counts =>
    if maxR ≤ selected.length then selected
    else if counts.get r.type < 2 then
      selectLoop maxR rest (selected ++ [r]) (counts.bump r.type)
    else selectLoop maxR rest selected counts

/-- Second pass of `_select_best_resources`: fill the remaining slots with
the best remaining resources regardless of type (`if resource not in
selected`, Python value equality). -/
def fillLoop : List LearningResource → List LearningResource → Nat → List LearningResource
  | [], selected, _ => selected
  | r :: rest, selected, remaining =>
    if remaining = 0 then selected
    else if r ∈ selected then fillLoop rest selected remaining
    else fillLoop rest (selected ++ [r]) (remaining - 1)

/-- `_select_best_resources(resources, max_resources)`: rank by descending
relevance (stable sort), take at most 2 per resource type in ranked order,
then top up unfilled slots with the next-best remaining resources. -/
def _select_best_resources (resources : List LearningResource)
    (max_resources : Nat) : List LearningResource :=
  let sorted := sortByRelevanceDesc resources
  let selected := selectLoop max_resources sorted [] zeroCounts
  fillLoop sorted selected (max_resources - selected.length)

/-- Tied pair used to refute the quality tie-break: equal relevance,
strictly increasing quality, gateway order returns the low-quality one first. -/
def rTieLowQ : LearningResource :=
  { type := "article", title := "low quality first", url := "https://e.com/1",
    description := "", source := "E", relevance_score := 5, quality_score := 1 }

def rTieHighQ : LearningResource :=
  { type := "article", title := "high quality second", url := "https://e.com/2",
    description := "", source := "E", relevance_score := 5, quality_score := 9 }

/-- C6 counterexample: two resources with equal relevance but quality 1
(first in gateway order) and 9 (second).  The claimed ranking would place
the quality-9 resource first; the code's ranking key is `relevance_score`
alone, so the selection returns them in gateway order with the lower
quality first. -/
theorem C6_counterexample :
    rTieLowQ.relevance_score = rTieHighQ.relevance_score ∧
      rTieLowQ.quality_score < rTieHighQ.quality_score ∧
      _select_best_resources [rTieLowQ, rTieHighQ] 4 = [rTieLowQ, rTieHighQ] := by
  refine ⟨rfl, by norm_num [rTieLowQ, rTieHighQ], by decide⟩

/-- C6 amended: the ranking of `_select_best_resources` orders candidates
by `relevance_score` descending only and is stable: resources with equal
relevance keep the gateway's return order; `quality_score` is never
consulted.  Formally: the ranking permutes its input, is pairwise
non-increasing in relevance, and preserves the relative order of every
equal-relevance class. -/
theorem C6_ranking_relevance_only_stable (l : List LearningResource) :
    (sortByRelevanceDesc l).Perm l ∧
      (sortByRelevanceDesc l).Pairwise
        (fun a b => b.relevance_score ≤ a.relevance_score) ∧
      ∀ q : ℚ, (sortByRelevanceDesc l).filter (fun x => x.relevance_score == q) =
        l.filter (fun x => x.relevance_score == q) :=
  ⟨sortByRelevanceDesc_perm l, sortByRelevanceDesc_sorted l,
    fun q => sortByRelevanceDesc_stable q l⟩

/-- Number of selected resources of a given type (the value tracked by the
`type_counts` dict). -/
def countType (l : List LearningResource) (t : String) : Nat :=
  l.countP (fun r => r.type == t)

lemma countType_nil (t : String) : countType [] t = 0 := rfl

lemma countType_append (l₁ l₂ : List LearningResource) (t : String) :
    countType (l₁ ++ l₂) t = countType l₁ t + countType l₂ t :=
  List.countP_append _ _ _

lemma countType_singleton (r : LearningResource) (t : String) :
    countType [r] t = if r.type = t then 1 else 0 := by
  by_cases h : r.type = t <;> simp [countType, List.countP_cons, h]

lemma countType_cons (a : LearningResource) (t : List LearningResource) (s : String) :
    countType (a :: t) s = countType t s + (if a.type = s then 1 else 0) := by
  by_cases h : a.type = s <;> simp [countType, List.countP_cons, h]

lemma one_le_countType_of_mem (l : List LearningResource) (r : LearningResource)
    (hr : r ∈ l) : 1 ≤ countType l r.type := by
  have : 0 < countType l r.type := by
    rw [countType, List.countP_pos_iff]
    exact ⟨r, hr, by simp⟩
  omega

lemma countType_three_le_length (l : List LearningResource) (ta tb tc : String)
    (hab : ta ≠ tb) (hac : ta ≠ tc) (hbc : tb ≠ tc) :
    countType l ta + countType l tb + countType l tc ≤ l.length := by
  induction l with
  | nil => simp [countType]
  | cons a t ih =>
    rw [countType_cons, countType_cons, countType_cons, List.length_cons]
    by_cases h1 : a.type = ta
    · rw [if_pos h1, if_neg (fun h => hab (h1.symm.trans h)),
        if_neg (fun h => hac (h1.symm.trans h))]
      omega
    · by_cases h2 : a.type = tb
      · rw [if_neg h1, if_pos h2, if_neg (fun h => hbc (h2.symm.trans h))]
        omega
      · by_cases h3 : a.type = tc
        · rw [if_neg h1, if_neg h2, if_pos h3]
          omega
        · rw [if_neg h1, if_neg h2, if_neg h3]
          omega

lemma TypeCounts.get_bump (c : TypeCounts) (s t : String) (hs : s ∈ resourceTypes) :
    (c.bump s).get t = if t = s then c.get t + 1 else c.get t := by
  simp only [resourceTypes, List.mem_cons, List.not_mem_nil, or_false] at hs
  rcases hs with rfl | rfl | rfl | rfl <;>
    · simp only [TypeCounts.bump, TypeCounts.get]
      split_ifs <;> simp_all

/-- The first pass appends to `selected`: its output extends `selected`. -/
lemma selectLoop_append (m : Nat) (rest : List LearningResource) :
    ∀ (sel : List LearningResource) (c : TypeCounts),
      ∃ ext, selectLoop m rest sel c = sel ++ ext := by
  induction rest with
  | nil => exact fun sel c => ⟨[], by simp [selectLoop]⟩
  | cons a rest ih =>
    intro sel c
    rw [selectLoop]
    by_cases hb : m ≤ sel.length
    · exact ⟨[], by simp [hb]⟩
    · rw [if_neg hb]
      by_cases hcap : c.get a.type < 2
      · rw [if_pos hcap]
        obtain ⟨ext, hext⟩ := ih (sel ++ [a]) (c.bump a.type)
        exact ⟨a :: ext, by simp [hext]⟩
      · rw [if_neg hcap]
        exact ih sel c

/-- The first pass never selects more than `max(|selected|, maxR)` resources. -/
lemma selectLoop_length_le (m : Nat) (rest : List LearningResource) :
    ∀ (sel : List LearningResource) (c : TypeCounts),
      (selectLoop m rest sel c).length ≤ max sel.length m := by
  induction rest with
  | nil => exact fun sel c => le_max_left _ _
  | cons a rest ih =>
    intro sel c
    rw [selectLoop]
    by_cases hb : m ≤ sel.length
    · rw [if_pos hb]
      exact le_max_left _ _
    · rw [if_neg hb]
      by_cases hcap : c.get a.type < 2
      · rw [if_pos hcap]
        refine le_trans (ih (sel ++ [a]) (c.bump a.type)) ?_
        simp only [List.length_append, List.length_cons, List.length_nil]
        omega
      · rw [if_neg hcap]
        exact le_trans (ih sel c) (by omega)

/-- The first pass keeps every per-type count at 2 or below. -/
lemma selectLoop_cap (m : Nat) (rest : List LearningResource) :
    ∀ (sel : List LearningResource) (c : TypeCounts),
      (∀ t, c.get t = countType sel t) →
      (∀ t, countType sel t ≤ 2) →
      (∀ r ∈ rest, r.type ∈ resourceTypes) →
      ∀ t, countType (selectLoop m rest sel c) t ≤ 2 := by
  induction rest with
  | nil => exact fun sel c _ hsel _ t => hsel t
  | cons a rest ih =>
    intro sel c hc hsel hrest t
    rw [selectLoop]
    by_cases hb : m ≤ sel.length
    · rw [if_pos hb]
      exact hsel t
    · rw [if_neg hb]
      by_cases hcap : c.get a.type < 2
      · rw [if_pos hcap]
        have haty : a.type ∈ resourceTypes := hrest a (by simp)
        refine ih (sel ++ [a]) (c.bump a.type) ?_ ?_ (fun r hr => hrest r (by simp [hr])) t
        · intro u
          rw [TypeCounts.get_bump c a.type u haty, countType_append, countType_singleton]
          by_cases hu : u = a.type
          · simp [hu, hc]
          · have : ¬ (a.type = u) := fun h => hu h.symm
            simp [hu, this, hc]
        · intro u
          rw [countType_append, countType_singleton]
          by_cases hu : a.type = u
          · rw [if_pos hu]
            have hlt : countType sel u < 2 := by
              rw [← hc u, ← hu]
              exact hcap
            omega
          · rw [if_neg hu]
            have := hsel u
            omega
      · rw [if_neg hcap]
        exact ih sel c hc hsel (fun r hr => hrest r (by simp [hr])) t

/-- If the first pass ends with fewer than `maxR` selections, it never broke
out early, so every candidate was either selected or skipped because its
type already held 2 slots. -/
lemma selectLoop_mem_or_capped (m : Nat) (rest : List LearningResource) :
    ∀ (sel : List LearningResource) (c : TypeCounts),
      (selectLoop m rest sel c).length < m →
      (∀ t, c.get t = countType sel t) →
      (∀ r ∈ rest, r.type ∈ resourceTypes) →
      ∀ r ∈ rest, r ∈ selectLoop m rest sel c ∨
        2 ≤ countType (selectLoop m rest sel c) r.type := by
  induction rest with
  | nil => intro sel c _ _ _ r hr; exact absurd hr (List.not_mem_nil r)
  | cons a rest ih =>
    intro sel c hout hc hrest r hr
    rw [selectLoop] at hout ⊢
    by_cases hb : m ≤ sel.length
    · rw [if_pos hb] at hout
      omega
    · rw [if_neg hb] at hout ⊢
      by_cases hcap : c.get a.type < 2
      · rw [if_pos hcap] at hout ⊢
        have haty : a.type ∈ resourceTypes := hrest a (by simp)
        have hc2 : ∀ t, (c.bump a.type).get t = countType (sel ++ [a]) t := by
          intro u
          rw [TypeCounts.get_bump c a.type u haty, countType_append, countType_singleton]
          by_cases hu : u = a.type
          · simp [hu, hc]
          · have : ¬ (a.type = u) := fun h => hu h.symm
            simp [hu, this, hc]
        rcases List.mem_cons.mp hr with heq | hr2
        · subst heq
          left
          obtain ⟨ext, hext⟩ := selectLoop_append m rest (sel ++ [r]) (c.bump r.type)
          rw [hext]
          simp
        · exact ih (sel ++ [a]) (c.bump a.type) hout hc2
            (fun x hx => hrest x (by simp [hx])) r hr2
      · rw [if_neg hcap] at hout ⊢
        rcases List.mem_cons.mp hr with heq | hr2
        · subst heq
          right
          obtain ⟨ext, hext⟩ := selectLoop_append m rest sel c
          rw [hext, countType_append]
          have h2le : 2 ≤ countType sel r.type := by
            rw [← hc r.type]
            omega
          omega
        · exact ih sel c hout hc (fun x hx => hrest x (by simp [hx])) r hr2

lemma fillLoop_zero (rest sel : List LearningResource) :
    fillLoop rest sel 0 = sel := by
  cases rest with
  | nil => rfl
  | cons a t => rw [fillLoop, if_pos rfl]

lemma fillLoop_length_le (rest : List LearningResource) :
    ∀ (sel : List LearningResource) (rem : Nat),
      (fillLoop rest sel rem).length ≤ sel.length + rem := by
  induction rest with
  | nil => intro sel rem; simp [fillLoop]
  | cons a t ih =>
    intro sel rem
    rw [fillLoop]
    by_cases h0 : rem = 0
    · rw [if_pos h0]
      omega
    · rw [if_neg h0]
      by_cases hm : a ∈ sel
      · rw [if_pos hm]
        exact ih sel rem
      · rw [if_neg hm]
        refine le_trans (ih (sel ++ [a]) (rem - 1)) ?_
        simp only [List.length_append, List.length_cons, List.length_nil]
        omega

lemma fillLoop_noop (rest : List LearningResource) :
    ∀ (sel : List LearningResource) (rem : Nat),
      (∀ r ∈ rest, r ∈ sel) → fillLoop rest sel rem = sel := by
  induction rest with
  | nil => intro sel rem _; rfl
  | cons a t ih =>
    intro sel rem hall
    rw [fillLoop]
    by_cases h0 : rem = 0
    · rw [if_pos h0]
    · rw [if_neg h0, if_pos (hall a (by simp))]
      exact ih sel rem (fun r hr => hall r (by simp [hr]))

/-- The fill pass preserves distinctness of urls, because it only adds
resources of the ranked list that are not value-equal to an already
selected one, and value-distinct resources of a url-distinct list have
distinct urls. -/
lemma fillLoop_nodup (sorted : List LearningResource)
    (hnd : (sorted.map (fun r => r.url)).Nodup) :
    ∀ (rest : List LearningResource), (∀ r ∈ rest, r ∈ sorted) →
    ∀ (sel : List LearningResource) (rem : Nat),
      (sel.map (fun r => r.url)).Nodup → (∀ r ∈ sel, r ∈ sorted) →
      ((fillLoop rest sel rem).map (fun r => r.url)).Nodup := by
  intro rest
  induction rest with
  | nil => intro _ sel rem hs _; exact hs
  | cons a t ih =>
    intro hrest sel rem hs hselin
    rw [fillLoop]
    by_cases h0 : rem = 0
    · rw [if_pos h0]
      exact hs
    · rw [if_neg h0]
      by_cases hm : a ∈ sel
      · rw [if_pos hm]
        exact ih (fun r hr => hrest r (by simp [hr])) sel rem hs hselin
      · rw [if_neg hm]
        refine ih (fun r hr => hrest r (by simp [hr])) (sel ++ [a]) (rem - 1) ?_ ?_
        · rw [show (sel ++ [a]).map (fun r => r.url) =
              sel.map (fun r => r.url) ++ [a.url] by simp]
          rw [List.nodup_append]
          refine ⟨hs, List.nodup_singleton _, ?_⟩
          intro u hu1 hu2
          simp only [List.mem_singleton] at hu2
          subst hu2
          obtain ⟨s, hsmem, hsurl⟩ := List.mem_map.mp hu1
          have hsa : s = a :=
            List.inj_on_of_nodup_map hnd (hselin s hsmem) (hrest a (by simp)) hsurl
          exact hm (hsa ▸ hsmem)
        · intro r hr
          rcases List.mem_append.mp hr with h | h
          · exact hselin r h
          · simp only [List.mem_singleton] at h
            subst h
            exact hrest r (by simp)

/-- The first pass selects a url-distinct sub-collection of its input. -/
lemma selectLoop_nodup_sub (m : Nat) :
    ∀ (rest sel : List LearningResource) (c : TypeCounts),
      ((sel ++ rest).map (fun r => r.url)).Nodup →
      ((selectLoop m rest sel c).map (fun r => r.url)).Nodup ∧
        ∀ r ∈ selectLoop m rest sel c, r ∈ sel ++ rest := by
  intro rest
  induction rest with
  | nil =>
    intro sel c h
    refine ⟨by simpa using h, fun r hr => ?_⟩
    rw [selectLoop] at hr
    simpa using hr
  | cons a t ih =>
    intro sel c h
    rw [selectLoop]
    by_cases hb : m ≤ sel.length
    · rw [if_pos hb]
      refine ⟨?_, fun r hr => List.mem_append_left _ hr⟩
      exact List.Nodup.sublist ((List.sublist_append_left sel (a :: t)).map _) h
    · rw [if_neg hb]
      by_cases hcap : c.get a.type < 2
      · rw [if_pos hcap]
        have h2 : (((sel ++ [a]) ++ t).map (fun r => r.url)).Nodup := by
          simpa [List.append_assoc] using h
        obtain ⟨hnd, hmem⟩ := ih (sel ++ [a]) (c.bump a.type) h2
        refine ⟨hnd, fun r hr => ?_⟩
        have hin := hmem r hr
        simpa [List.append_assoc] using hin
      · rw [if_neg hcap]
        have hsub : (sel ++ t).Sublist (sel ++ a :: t) :=
          List.Sublist.append_left (List.sublist_cons_self a t) sel
        have h2 : ((sel ++ t).map (fun r => r.url)).Nodup :=
          List.Nodup.sublist (hsub.map _) h
        obtain ⟨hnd, hmem⟩ := ih sel c h2
        refine ⟨hnd, fun r hr => ?_⟩
        have hin := hmem r hr
        rcases List.mem_append.mp hin with hx | hx
        · exact List.mem_append_left _ hx
        · exact List.mem_append_right _ (by simp [hx])

/-- `_select_best_resources` unfolded to its two passes over the ranked list. -/
lemma select_best_resources_def (l : List LearningResource) (m : Nat) :
    _select_best_resources l m =
      fillLoop (sortByRelevanceDesc l)
        (selectLoop m (sortByRelevanceDesc l) [] zeroCounts)
        (m - (selectLoop m (sortByRelevanceDesc l) [] zeroCounts).length) := rfl

lemma zeroCounts_get (t : String) :
    zeroCounts.get t = countType ([] : List LearningResource) t := by
  rw [show countType ([] : List LearningResource) t = 0 from rfl]
  rw [TypeCounts.get, zeroCounts]
  split_ifs <;> rfl

/-- C5: for any candidate list whose types are among the four the pipeline
produces (on any other type the Python dict lookup raises and no selection
is returned), the selection returns at most 4 resources, and when at least
3 distinct resource types are available among the candidates no single type
occupies more than 2 of the selected slots. -/
theorem C5_selection_at_most_four_and_diverse (l : List LearningResource)
    (hty : ∀ r ∈ l, r.type ∈ resourceTypes) :
    (_select_best_resources l 4).length ≤ 4 ∧
      ((∃ t1 t2 t3 : String, t1 ≠ t2 ∧ t1 ≠ t3 ∧ t2 ≠ t3 ∧
          (∃ r ∈ l, r.type = t1) ∧ (∃ r ∈ l, r.type = t2) ∧ (∃ r ∈ l, r.type = t3)) →
        ∀ t, countType (_select_best_resources l 4) t ≤ 2) := by
  rw [select_best_resources_def]
  have hty2 : ∀ r ∈ sortByRelevanceDesc l, r.type ∈ resourceTypes := fun r hr =>
    hty r ((sortByRelevanceDesc_perm l).subset hr)
  have hS1len : (selectLoop 4 (sortByRelevanceDesc l) [] zeroCounts).length ≤ 4 := by
    simpa using selectLoop_length_le 4 (sortByRelevanceDesc l) [] zeroCounts
  constructor
  · have := fillLoop_length_le (sortByRelevanceDesc l)
      (selectLoop 4 (sortByRelevanceDesc l) [] zeroCounts)
      (4 - (selectLoop 4 (sortByRelevanceDesc l) [] zeroCounts).length)
    omega
  · intro h3 t
    have hcap : ∀ u, countType (selectLoop 4 (sortByRelevanceDesc l) [] zeroCounts) u ≤ 2 :=
      selectLoop_cap 4 (sortByRelevanceDesc l) [] zeroCounts zeroCounts_get
        (by intro u; simp [countType]) hty2
    by_cases hful : 4 ≤ (selectLoop 4 (sortByRelevanceDesc l) [] zeroCounts).length
    · have h40 : 4 - (selectLoop 4 (sortByRelevanceDesc l) [] zeroCounts).length = 0 := by
        omega
      rw [h40, fillLoop_zero]
      exact hcap t
    · push_neg at hful
      have hmm := selectLoop_mem_or_capped 4 (sortByRelevanceDesc l) [] zeroCounts hful
        zeroCounts_get hty2
      have hall : ∀ r ∈ sortByRelevanceDesc l,
          r ∈ selectLoop 4 (sortByRelevanceDesc l) [] zeroCounts := by
        intro r hr
        rcases hmm r hr with hin | h2le
        · exact hin
        · exfalso
          obtain ⟨t1, t2, t3, h12, h13, h23, ⟨r1, hr1, hrt1⟩, ⟨r2, hr2, hrt2⟩,
            ⟨r3, hr3, hrt3⟩⟩ := h3
          have hcnt : ∀ (s : LearningResource), s ∈ l →
              1 ≤ countType (selectLoop 4 (sortByRelevanceDesc l) [] zeroCounts) s.type := by
            intro s hs
            rcases hmm s ((sortByRelevanceDesc_perm l).mem_iff.mpr hs) with h | h
            · exact one_le_countType_of_mem _ s h
            · omega
          have hc1 : 1 ≤ countType (selectLoop 4 (sortByRelevanceDesc l) [] zeroCounts) t1 := by
            have := hcnt r1 hr1
            rwa [hrt1] at this
          have hc2 : 1 ≤ countType (selectLoop 4 (sortByRelevanceDesc l) [] zeroCounts) t2 := by
            have := hcnt r2 hr2
            rwa [hrt2] at this
          have hc3 : 1 ≤ countType (selectLoop 4 (sortByRelevanceDesc l) [] zeroCounts) t3 := by
            have := hcnt r3 hr3
            rwa [hrt3] at this
          have key : ∀ ta tb : String, ta ≠ tb → r.type ≠ ta → r.type ≠ tb →
              1 ≤ countType (selectLoop 4 (sortByRelevanceDesc l) [] zeroCounts) ta →
              1 ≤ countType (selectLoop 4 (sortByRelevanceDesc l) [] zeroCounts) tb →
              False := by
            intro ta tb hab hra hrb h1a h1b
            have hsum := countType_three_le_length
              (selectLoop 4 (sortByRelevanceDesc l) [] zeroCounts) r.type ta tb hra hrb hab
            omega
          by_cases e1 : r.type = t1
          · exact key t2 t3 h23 (fun h => h12 (e1.symm.trans h))
              (fun h => h13 (e1.symm.trans h)) hc2 hc3
          · by_cases e2 : r.type = t2
            · exact key t1 t3 h13 (fun h => h12 (h.symm.trans e2)) (fun h => h23 (e2.symm.trans h)) hc1 hc3
            · exact key t1 t2 h12 e1 e2 hc1 hc2
      rw [fillLoop_noop (sortByRelevanceDesc l) _ _ hall]
      exact hcap t

def wVideo : LearningResource :=
  { type := "video", title := "v", url := "https://v.example/1", description := "",
    source := "V", relevance_score := 9, quality_score := 0 }

def wArticle : LearningResource :=
  { type := "article", title := "a", url := "https://a.example/1", description := "",
    source := "A", relevance_score := 8, quality_score := 0 }

def wCourse : LearningResource :=
  { type := "course", title := "c", url := "https://c.example/1", description := "",
    source := "C", relevance_score := 7, quality_score := 0 }

/-- Witness for C5 at a concrete three-type candidate list. -/
theorem C5_selection_witness :
    (_select_best_resources [wVideo, wArticle, wCourse] 4).length ≤ 4 ∧
      countType (_select_best_resources [wVideo, wArticle, wCourse] 4) "video" ≤ 2 :=
  ⟨(C5_selection_at_most_four_and_diverse [wVideo, wArticle, wCourse] (by decide)).1,
   (C5_selection_at_most_four_and_diverse [wVideo, wArticle, wCourse] (by decide)).2
     ⟨"video", "article", "course", by decide, by decide, by decide,
       ⟨wVideo, by decide, rfl⟩, ⟨wArticle, by decide, rfl⟩, ⟨wCourse, by decide, rfl⟩⟩
     "video"⟩

/-- C8: the resources emitted for one objective — raw hits deduplicated by
`_remove_duplicates` and then passed through both passes of
`_select_best_resources` — never contain two resources with the same url,
for every input list, duplicates included. -/
theorem C8_urls_unique_after_selection (l : List LearningResource)
    (hty : ∀ r ∈ l, r.type ∈ resourceTypes) :
    ((_select_best_resources (_remove_duplicates l) 4).map (fun r => r.url)).Nodup := by
  rw [select_best_resources_def]
  have hnd : ((_remove_duplicates l).map (fun r => r.url)).Nodup :=
    nodup_urls_remove_duplicates l
  have hsortnd :
      ((sortByRelevanceDesc (_remove_duplicates l)).map (fun r => r.url)).Nodup := by
    refine (List.Perm.nodup_iff ?_).mpr hnd
    exact (sortByRelevanceDesc_perm _).map _
  obtain ⟨hs1nd, hs1mem⟩ := selectLoop_nodup_sub 4
    (sortByRelevanceDesc (_remove_duplicates l)) [] zeroCounts (by simpa using hsortnd)
  refine fillLoop_nodup _ hsortnd _ (fun r hr => hr) _ _ hs1nd ?_
  intro r hr
  have hin := hs1mem r hr
  simpa using hin

def wDup1 : LearningResource :=
  { type := "video", title := "w one", url := "https://w.example/x", description := "",
    source := "W", relevance_score := 3, quality_score := 0 }

def wDup2 : LearningResource :=
  { type := "article", title := "w two", url := "https://w.example/x", description := "",
    source := "W", relevance_score := 6, quality_score := 0 }

def wDoc : LearningResource :=
  { type := "documentation", title := "w doc", url := "https://w.example/y",
    description := "", source := "W", relevance_score := 2, quality_score := 0 }

/-- Witness for C8 at a concrete list containing a duplicated url. -/
theorem C8_urls_unique_witness :
    ((_select_best_resources (_remove_duplicates [wDup1, wDup2, wDoc]) 4).map
      (fun r => r.url)).Nodup :=
  C8_urls_unique_after_selection [wDup1, wDup2, wDoc] (by decide)

/-! ## Relevance scoring (`_calculate_relevance`, `_is_educational_content`) -/

/-- The educational bonus keywords of `_calculate_relevance`. -/
def educational_terms : List String := ["tutorial", "guide", "learn", "course", "lesson"]

/-- `_calculate_relevance(search_result, objective)`: +2 per objective word
found in the lowercased title, +1 per objective word found in the
lowercased content, +1 per educational keyword in the title, capped at 10.
The search result is represented by its `title` and `content` fields. -/
def _calculate_relevance (title content objective : String) : ℚ :=
  min
    (educational_terms.foldl
      (fun sc term => if strContains (strLower title) term then sc + 1 else sc)
      ((pySplit (strLower objective)).foldl
        (fun sc w =>
          let sc2 := if strContains (strLower title) w then sc + 2 else sc
          if strContains (strLower content) w then sc2 + 1 else sc2)
        0))
    10

/-- `_is_educational_content(resource)`: reject urls containing a
forum/discussion/chat/social indicator, then require relevance ≥ 2.0.
(The source also computes `title_lower` but never reads it.) -/
def _is_educational_content (resource : LearningResource) : Bool :=
  if containsAny (strLower resource.url) ["forum", "discussion", "chat", "social"] then
    false
  else decide (2 ≤ resource.relevance_score)

lemma relevance_fold (tl cl : String) (ws : List String) (init : ℚ) :
    ws.foldl
      (fun sc w =>
        let sc2 := if strContains tl w then sc + 2 else sc
        if strContains cl w then sc2 + 1 else sc2) init =
      init + 2 * (ws.countP (fun w => strContains tl w) : ℚ)
        + (ws.countP (fun w => strContains cl w) : ℚ) := by
  induction ws generalizing init with
  | nil => simp
  | cons w ws ih =>
    rw [List.foldl_cons, ih]
    by_cases h1 : strContains tl w <;> by_cases h2 : strContains cl w <;>
      · simp only [List.countP_cons, h1, h2, if_true, if_false]
        push_cast
        ring

lemma bonus_fold (tl : String) (ts : List String) (init : ℚ) :
    ts.foldl (fun sc term => if strContains tl term then sc + 1 else sc) init =
      init + (ts.countP (fun term => strContains tl term) : ℚ) := by
  induction ts generalizing init with
  | nil => simp
  | cons t ts ih =>
    rw [List.foldl_cons, ih]
    by_cases h : strContains tl t <;>
      · simp only [List.countP_cons, h, if_true, if_false]
        push_cast
        ring

/-- C9: the relevance score is the minimum of 10 and 2×(objective words
present in the title) + 1×(objective words present in the content) +
1×(educational keywords present in the title); and every resource passing
the educational-content filter has relevance score at least 2. -/
theorem C9_relevance_formula_and_floor (title content objective : String)
    (r : LearningResource) :
    _calculate_relevance title content objective =
      min 10
        (2 * ((pySplit (strLower objective)).countP
            (fun w => strContains (strLower title) w) : ℚ)
          + ((pySplit (strLower objective)).countP
            (fun w => strContains (strLower content) w) : ℚ)
          + (educational_terms.countP
            (fun term => strContains (strLower title) term) : ℚ)) ∧
      (_is_educational_content r = true → 2 ≤ r.relevance_score) := by
  constructor
  · rw [_calculate_relevance, relevance_fold, bonus_fold, min_comm]
    congr 1
    ring
  · intro hx
    rw [_is_educational_content] at hx
    split_ifs at hx
    exact of_decide_eq_true hx

/-- Resource used to witness the educational-content floor. -/
def wEdu : LearningResource :=
  { type := "article", title := "python tutorial",
    url := "https://realpython.example/tut", description := "", source := "R",
    relevance_score := 5, quality_score := 0 }

/-- Witness for C9: the filter accepts `wEdu` and the floor applies to it. -/
theorem C9_relevance_witness :
    _is_educational_content wEdu = true ∧ 2 ≤ wEdu.relevance_score :=
  ⟨by decide,
   (C9_relevance_formula_and_floor "python tutorial" "learn python" "python" wEdu).2
     (by decide)⟩

/-! ## Quality scorer (`quality_scorer.py`) -/

/-- The five recognized-organization lists of `QualityScorer.__init__`,
flattened in dict insertion order (the credibility check scans every
list and only its combined membership matters). -/
def recognized_organizations : List String :=
  ["nike", "adidas", "under armour", "crossfit", "ace", "nasm", "acsm",
   "yoga alliance", "yoga journal", "doyogawithme", "yoga international",
   "headspace", "calm", "insight timer", "mindful.org",
   "who", "usda", "academy of nutrition", "harvard health",
   "apa", "nami", "mayo clinic", "who mental health"]

/-- `QualityScorer._score_credibility`: credibility score together with the
`source_credibility` tier the method stores on the resource (read back by
`_score_recency`).  Local variables `source_lower`/`url_lower` are inlined. -/
def _score_credibility (r : LearningResource) (topic_category : String) : ℚ × String :=
  if containsAny (strLower r.url) [".gov", ".edu", "official", "docs."] then
    (10, "official")
  else if (topic_category == "health_wellness") &&
      recognized_organizations.any
        (fun org => strContains (strLower r.source) org
          || strContains (strLower r.url) org) then
    (9, "recognized")
  else if ["coursera", "edx", "khan academy", "masterclass", "skillshare", "udemy"].any
      (fun p => strContains (strLower r.source) p || strContains (strLower r.url) p) then
    (8, "established")
  else if containsAny (strLower r.source)
      ["association", "institute", "foundation", "certified", "accredited"] then
    (7, "professional")
  else if ["medium", "dev.to", "youtube", "reddit"].any
      (fun p => strContains (strLower r.source) p || strContains (strLower r.url) p) then
    (6, "popular")
  else (5, "community")

/-- `QualityScorer._score_engagement`. -/
def _score_engagement (r : LearningResource) : ℚ :=
  if r.type = "video" then
    if containsAny (strLower r.title) ["tutorial", "guide", "how to", "learn"] then 8
    else 7
  else if r.type = "course" then
    if strContains (strLower r.description) "comprehensive"
        || strContains (strLower r.description) "complete" then 9
    else 8
  else if r.type = "article" then
    if containsAny (strLower r.title) ["complete", "comprehensive", "ultimate"] then 8
    else if containsAny (strLower r.title) ["tutorial", "guide", "how to"] then 7
    else 6
  else 5

/-- `QualityScorer._score_depth`. -/
def _score_depth (r : LearningResource) : ℚ :=
  if ["complete", "comprehensive", "full", "ultimate", "master"].any
      (fun w => strContains (strLower r.title) w
        || strContains (strLower r.description) w) then 10
  else if containsAny (strLower r.title) ["series", "collection", "part", "episode"] then 8
  else if containsAny (strLower r.title) ["tutorial", "guide", "how to", "learn"] then 6
  else if containsAny (strLower r.title) ["tip", "quick", "basics", "intro"] then 4
  else 5

/-- Word character for the boundaries of the year regex `\b(20[12]\d)\b`
(`\w`, restricted to the ASCII range the scored text uses). -/
def isWordChar (c : Char) : Bool := c.isAlphanum || c = '_'

/-- Try to match `20[12]\d` followed by a word boundary at the head of the
text, `c1` being the head character and the list the remaining text. -/
def yearAt (c1 : Char) : List Char → Option Nat
  | c2 :: c3 :: c4 :: rest =>
    if c1 = '2' && c2 = '0' && (c3 = '1' || c3 = '2') && c4.isDigit &&
        !(match rest with | [] => false | c5 :: _ => isWordChar c5) then
      some (2000 + (c3.toNat - 48) * 10 + (c4.toNat - 48))
    else none
  | _ => none

/-- First match of `re.findall(r'\b(20[12]\d)\b', text)`: scan left to
right; `prevW` records whether the previous character was a word character
(the leading `\b`). -/
def findYear (prevW : Bool) : List Char → Option Nat
  | [] => none
  | c1 :: rest =>
    match (if prevW then none else yearAt c1 rest) with
    | some y => some y
    | none => findYear (isWordChar c1) rest

/-- `QualityScorer._score_recency`: first year token of the lowercased
`title + ' ' + description` compared against the current year, falling back
on the credibility tier when no year is present.  Python's
`year >= current_year - k` is written `current_year ≤ year + k`, equal for
all naturals. -/
def _score_recency (r : LearningResource) (source_credibility : String)
    (current_year : Nat) : ℚ :=
  match findYear false (strLower r.title ++ " " ++ strLower r.description).data with
  | some year =>
    if year = current_year then 10
    else if current_year ≤ year + 2 then 8
    else if current_year ≤ year + 5 then 6
    else 4
  | none =>
    if source_credibility ∈ ["official", "recognized", "established"] then 7
    else 5

/-- `QualityScorer._get_safety_warnings`. -/
def _get_safety_warnings (r : LearningResource) (topic_category : String) : List String :=
  if topic_category = "health_wellness" then
    if containsAny (strLower r.title) ["exercise", "workout", "fitness", "yoga"] then
      ["Consult your doctor before starting any new exercise program."]
    else if containsAny (strLower r.title) ["meditation", "mental health", "therapy"] then
      ["This is not a substitute for professional medical advice."]
    else if containsAny (strLower r.title) ["nutrition", "diet", "supplements"] then
      ["Consult a healthcare provider for personalized nutrition advice."]
    else []
  else if topic_category = "technical" then
    if containsAny (strLower r.title) ["database", "server", "production"] then
      ["Backup your data before making system changes."]
    else if containsAny (strLower r.title) ["security", "authentication"] then
      ["Test security implementations in a safe environment."]
    else []
  else if topic_category = "creative" then
    if containsAny (strLower r.title) ["painting", "art", "crafts"] then
      ["Use appropriate materials and ensure proper ventilation."]
    else []
  else []

/-- Python's `round(x, 2)`.  Every value the scorer rounds is an integer
multiple of 1/100 (integer sub-scores, weights 0.4/0.25/0.2/0.15), so the
half-way corner cases where Python's banker rounding and `round` differ
never arise. -/
def round2 (q : ℚ) : ℚ := (round (q * 100) : ℤ) / 100

/-- The fields `QualityScorer.score_resource` writes back on the resource. -/
structure ScoredResource where
  quality_score : ℚ
  credibility_score : ℚ
  engagement_score : ℚ
  depth_score : ℚ
  recency_score : ℚ
  source_credibility : String
  safety_warnings : List String
  topic_category : String
deriving DecidableEq, Repr

/-- `QualityScorer.score_resource`: score the four dimensions (credibility
first — its tier feeds the recency fallback), combine them with weights
0.4 / 0.25 / 0.2 / 0.15, round all stored scores to two decimals.  The
current year of `datetime.now()` is a parameter. -/
def score_resource (r : LearningResource) (topic_category : String)
    (current_year : Nat) : ScoredResource :=
  { quality_score := round2 ((_score_credibility r topic_category).1 * (0.4 : ℚ)
      + _score_engagement r * (0.25 : ℚ) + _score_depth r * (0.2 : ℚ)
      + _score_recency r (_score_credibility r topic_category).2 current_year * (0.15 : ℚ))
    credibility_score := round2 (_score_credibility r topic_category).1
    engagement_score := round2 (_score_engagement r)
    depth_score := round2 (_score_depth r)
    recency_score := round2 (_score_recency r (_score_credibility r topic_category).2
      current_year)
    source_credibility := (_score_credibility r topic_category).2
    safety_warnings := _get_safety_warnings r topic_category
    topic_category := topic_category }

lemma score_credibility_cases (r : LearningResource) (tc : String) :
    ∃ k : ℤ, (_score_credibility r tc).1 = (k : ℚ) ∧ 5 ≤ k ∧ k ≤ 10 := by
  rw [_score_credibility]
  split_ifs
  · exact ⟨10, by norm_num⟩
  · exact ⟨9, by norm_num⟩
  · exact ⟨8, by norm_num⟩
  · exact ⟨7, by norm_num⟩
  · exact ⟨6, by norm_num⟩
  · exact ⟨5, by norm_num⟩

lemma score_engagement_cases (r : LearningResource) :
    ∃ k : ℤ, _score_engagement r = (k : ℚ) ∧ 5 ≤ k ∧ k ≤ 9 := by
  rw [_score_engagement]
  split_ifs
  · exact ⟨8, by norm_num⟩
  · exact ⟨7, by norm_num⟩
  · exact ⟨9, by norm_num⟩
  · exact ⟨8, by norm_num⟩
  · exact ⟨8, by norm_num⟩
  · exact ⟨7, by norm_num⟩
  · exact ⟨6, by norm_num⟩
  · exact ⟨5, by norm_num⟩

lemma score_depth_cases (r : LearningResource) :
    ∃ k : ℤ, _score_depth r = (k : ℚ) ∧ 4 ≤ k ∧ k ≤ 10 := by
  rw [_score_depth]
  split_ifs
  · exact ⟨10, by norm_num⟩
  · exact ⟨8, by norm_num⟩
  · exact ⟨6, by norm_num⟩
  · exact ⟨4, by norm_num⟩
  · exact ⟨5, by norm_num⟩

lemma score_recency_cases (r : LearningResource) (sc : String) (y : Nat) :
    ∃ k : ℤ, _score_recency r sc y = (k : ℚ) ∧ 4 ≤ k ∧ k ≤ 10 := by
  rw [_score_recency]
  cases findYear false (strLower r.title ++ " " ++ strLower r.description).data with
  | some year =>
    simp only
    split_ifs
    · exact ⟨10, by norm_num⟩
    · exact ⟨8, by norm_num⟩
    · exact ⟨6, by norm_num⟩
    · exact ⟨4, by norm_num⟩
  | none =>
    simp only
    split_ifs
    · exact ⟨7, by norm_num⟩
    · exact ⟨5, by norm_num⟩

lemma round2_hundredth (n : ℤ) : round2 ((n : ℚ) / 100) = (n : ℚ) / 100 := by
  rw [round2, div_mul_cancel₀ _ (by norm_num : (100 : ℚ) ≠ 0), round_intCast]

lemma round2_intCast (k : ℤ) : round2 (k : ℚ) = (k : ℚ) := by
  have h : ((k : ℚ)) = ((100 * k : ℤ) : ℚ) / 100 := by
    push_cast
    ring
  rw [h, round2_hundredth]

lemma total_as_hundredth (k1 k2 k3 k4 : ℤ) :
    (k1 : ℚ) * (0.4 : ℚ) + (k2 : ℚ) * (0.25 : ℚ) + (k3 : ℚ) * (0.2 : ℚ)
        + (k4 : ℚ) * (0.15 : ℚ) =
      ((40 * k1 + 25 * k2 + 20 * k3 + 15 * k4 : ℤ) : ℚ) / 100 := by
  push_cast
  norm_num
  ring

/-- C4: the stored quality score equals the weighted sum
0.4·credibility + 0.25·engagement + 0.2·depth + 0.15·recency of the stored
sub-scores exactly (the two-decimal rounding is the identity on every value
the scorer produces), every sub-score lies in [0, 10], and therefore the
quality score lies in [0, 10]. -/
theorem C4_quality_weighted_sum_and_bounds (r : LearningResource)
    (tc : String) (y : Nat) :
    (score_resource r tc y).quality_score =
        (0.4 : ℚ) * (score_resource r tc y).credibility_score
        + (0.25 : ℚ) * (score_resource r tc y).engagement_score
        + (0.2 : ℚ) * (score_resource r tc y).depth_score
        + (0.15 : ℚ) * (score_resource r tc y).recency_score ∧
      (0 ≤ (score_resource r tc y).credibility_score ∧
        (score_resource r tc y).credibility_score ≤ 10) ∧
      (0 ≤ (score_resource r tc y).engagement_score ∧
        (score_resource r tc y).engagement_score ≤ 10) ∧
      (0 ≤ (score_resource r tc y).depth_score ∧
        (score_resource r tc y).depth_score ≤ 10) ∧
      (0 ≤ (score_resource r tc y).recency_score ∧
        (score_resource r tc y).recency_score ≤ 10) ∧
      (0 ≤ (score_resource r tc y).quality_score ∧
        (score_resource r tc y).quality_score ≤ 10) := by
  obtain ⟨k1, e1, l1, u1⟩ := score_credibility_cases r tc
  obtain ⟨k2, e2, l2, u2⟩ := score_engagement_cases r
  obtain ⟨k3, e3, l3, u3⟩ := score_recency_cases r (_score_credibility r tc).2 y
  obtain ⟨k4, e4, l4, u4⟩ := score_depth_cases r
  have f1 : (score_resource r tc y).credibility_score =
      round2 (_score_credibility r tc).1 := rfl
  have f2 : (score_resource r tc y).engagement_score =
      round2 (_score_engagement r) := rfl
  have f3 : (score_resource r tc y).recency_score =
      round2 (_score_recency r (_score_credibility r tc).2 y) := rfl
  have f4 : (score_resource r tc y).depth_score = round2 (_score_depth r) := rfl
  have f5 : (score_resource r tc y).quality_score =
      round2 ((_score_credibility r tc).1 * (0.4 : ℚ)
        + _score_engagement r * (0.25 : ℚ) + _score_depth r * (0.2 : ℚ)
        + _score_recency r (_score_credibility r tc).2 y * (0.15 : ℚ)) := rfl
  rw [f1, f2, f3, f4, f5, e1, e2, e3, e4]
  rw [round2_intCast, round2_intCast, round2_intCast, round2_intCast]
  rw [total_as_hundredth k1 k2 k4 k3, round2_hundredth]
  refine ⟨?_, ?_, ?_, ?_, ?_, ?_, ?_⟩
  · push_cast
    ring
  · constructor <;> exact_mod_cast by omega
  · constructor <;> exact_mod_cast by omega
  · constructor <;> exact_mod_cast by omega
  · constructor <;> exact_mod_cast by omega
  · rw [le_div_iff₀ (by norm_num : (0:ℚ) < 100)]
    norm_num
    exact_mod_cast by omega
  · rw [div_le_iff₀ (by norm_num : (0:ℚ) < 100)]
    norm_num
    exact_mod_cast by omega

/-- C10: each sub-score is drawn from the scorer's finite tier sets —
credibility from {5,…,10} (min 5, max 10), engagement from {5,…,9},
depth from {4,…,10}, recency from {4,…,10} — so the weighted quality score
always lies in the interval [4.65, 9.75] and can reach neither 0 nor 10. -/
theorem C10_quality_score_tight_bounds (r : LearningResource)
    (tc : String) (y : Nat) :
    (5 ≤ (score_resource r tc y).credibility_score ∧
        (score_resource r tc y).credibility_score ≤ 10) ∧
      (5 ≤ (score_resource r tc y).engagement_score ∧
        (score_resource r tc y).engagement_score ≤ 9) ∧
      (4 ≤ (score_resource r tc y).depth_score ∧
        (score_resource r tc y).depth_score ≤ 10) ∧
      (4 ≤ (score_resource r tc y).recency_score ∧
        (score_resource r tc y).recency_score ≤ 10) ∧
      ((4.65 : ℚ) ≤ (score_resource r tc y).quality_score ∧
        (score_resource r tc y).quality_score ≤ (9.75 : ℚ)) := by
  obtain ⟨k1, e1, l1, u1⟩ := score_credibility_cases r tc
  obtain ⟨k2, e2, l2, u2⟩ := score_engagement_cases r
  obtain ⟨k3, e3, l3, u3⟩ := score_recency_cases r (_score_credibility r tc).2 y
  obtain ⟨k4, e4, l4, u4⟩ := score_depth_cases r
  have f1 : (score_resource r tc y).credibility_score =
      round2 (_score_credibility r tc).1 := rfl
  have f2 : (score_resource r tc y).engagement_score =
      round2 (_score_engagement r) := rfl
  have f3 : (score_resource r tc y).recency_score =
      round2 (_score_recency r (_score_credibility r tc).2 y) := rfl
  have f4 : (score_resource r tc y).depth_score = round2 (_score_depth r) := rfl
  have f5 : (score_resource r tc y).quality_score =
      round2 ((_score_credibility r tc).1 * (0.4 : ℚ)
        + _score_engagement r * (0.25 : ℚ) + _score_depth r * (0.2 : ℚ)
        + _score_recency r (_score_credibility r tc).2 y * (0.15 : ℚ)) := rfl
  rw [f1, f2, f3, f4, f5, e1, e2, e3, e4]
  rw [round2_intCast, round2_intCast, round2_intCast, round2_intCast]
  rw [total_as_hundredth k1 k2 k4 k3, round2_hundredth]
  refine ⟨?_, ?_, ?_, ?_, ?_, ?_⟩
  · constructor <;> exact_mod_cast by omega
  · constructor <;> exact_mod_cast by omega
  · constructor <;> exact_mod_cast by omega
  · constructor <;> exact_mod_cast by omega
  · rw [le_div_iff₀ (by norm_num : (0:ℚ) < 100)]
    norm_num
    exact_mod_cast by omega
  · rw [div_le_iff₀ (by norm_num : (0:ℚ) < 100)]
    norm_num
    exact_mod_cast by omega

/-- The spec scenario resource: "Complete Python Tutorial 2024" on
`docs.python.org`, an article, scored with `topic_category="technical"` in
a year where 2024 is the current year. -/
def pyTutorial2024 : LearningResource :=
  { type := "article", title := "Complete Python Tutorial 2024",
    url := "https://docs.python.org/3/tutorial/", description := "",
    source := "Docs", relevance_score := 0, quality_score := 0 }

lemma pyTutorial_cred :
    _score_credibility pyTutorial2024 "technical" = (10, "official") := by decide

lemma pyTutorial_eng : _score_engagement pyTutorial2024 = 8 := by decide

lemma pyTutorial_depth : _score_depth pyTutorial2024 = 10 := by decide

lemma pyTutorial_recency : _score_recency pyTutorial2024 "official" 2024 = 10 := by decide

lemma pyTutorial_cred_fst : (_score_credibility pyTutorial2024 "technical").1 = 10 := by
  rw [pyTutorial_cred]

lemma pyTutorial_cred_snd :
    (_score_credibility pyTutorial2024 "technical").2 = "official" := by
  rw [pyTutorial_cred]

/-- C7 counterexample: for the scenario resource the article branch of
`_score_engagement` sees "complete" in the title and returns 8, not the
claimed baseline 6, so the quality score is 0.4·10+0.25·8+0.2·10+0.15·10 =
9.5, not 9.0. -/
theorem C7_counterexample :
    (score_resource pyTutorial2024 "technical" 2024).engagement_score = 8 ∧
      ¬ ((score_resource pyTutorial2024 "technical" 2024).engagement_score = 6) ∧
      (score_resource pyTutorial2024 "technical" 2024).quality_score = (9.5 : ℚ) ∧
      ¬ ((score_resource pyTutorial2024 "technical" 2024).quality_score = (9.0 : ℚ)) := by
  have he : (score_resource pyTutorial2024 "technical" 2024).engagement_score = 8 := by
    show round2 (_score_engagement pyTutorial2024) = 8
    rw [pyTutorial_eng]
    norm_num [round2]
  have hq : (score_resource pyTutorial2024 "technical" 2024).quality_score = (9.5 : ℚ) := by
    show round2 ((_score_credibility pyTutorial2024 "technical").1 * (0.4 : ℚ)
      + _score_engagement pyTutorial2024 * (0.25 : ℚ)
      + _score_depth pyTutorial2024 * (0.2 : ℚ)
      + _score_recency pyTutorial2024 (_score_credibility pyTutorial2024 "technical").2 2024
        * (0.15 : ℚ)) = (9.5 : ℚ)
    rw [pyTutorial_cred_fst, pyTutorial_cred_snd, pyTutorial_eng, pyTutorial_depth,
      pyTutorial_recency]
    norm_num [round2]
  refine ⟨he, by rw [he]; norm_num, hq, by rw [hq]; norm_num⟩

/-- C7 amended: the scenario resource scores credibility 10 (official
domain), depth 10 ("complete" keyword), recency 10 (current-year token),
engagement 8 (article with the "complete" keyword boost), and quality
0.4·10 + 0.25·8 + 0.2·10 + 0.15·10 = 9.5. -/
theorem C7_scenario_scores :
    (score_resource pyTutorial2024 "technical" 2024).credibility_score = 10 ∧
      (score_resource pyTutorial2024 "technical" 2024).depth_score = 10 ∧
      (score_resource pyTutorial2024 "technical" 2024).recency_score = 10 ∧
      (score_resource pyTutorial2024 "technical" 2024).engagement_score = 8 ∧
      (score_resource pyTutorial2024 "technical" 2024).quality_score = (9.5 : ℚ) := by
  refine ⟨?_, ?_, ?_, ?_, ?_⟩
  · show round2 (_score_credibility pyTutorial2024 "technical").1 = 10
    rw [pyTutorial_cred_fst]
    norm_num [round2]
  · show round2 (_score_depth pyTutorial2024) = 10
    rw [pyTutorial_depth]
    norm_num [round2]
  · show round2
      (_score_recency pyTutorial2024 (_score_credibility pyTutorial2024 "technical").2 2024)
      = 10
    rw [pyTutorial_cred_snd, pyTutorial_recency]
    norm_num [round2]
  · show round2 (_score_engagement pyTutorial2024) = 8
    rw [pyTutorial_eng]
    norm_num [round2]
  · show round2 ((_score_credibility pyTutorial2024 "technical").1 * (0.4 : ℚ)
      + _score_engagement pyTutorial2024 * (0.25 : ℚ)
      + _score_depth pyTutorial2024 * (0.2 : ℚ)
      + _score_recency pyTutorial2024 (_score_credibility pyTutorial2024 "technical").2 2024
        * (0.15 : ℚ)) = (9.5 : ℚ)
    rw [pyTutorial_cred_fst, pyTutorial_cred_snd, pyTutorial_eng, pyTutorial_depth,
      pyTutorial_recency]
    norm_num [round2]

/-! ## Course assembly (`_organize_into_modules`, course_builder.py) -/

/-- The user-preference dict, restricted to the `timeline` key the module
packer reads (`prefs.get('timeline', '1 month')`). -/
structure Prefs where
  timeline : Option String
deriving DecidableEq, Repr

def Prefs.getTimeline (p : Prefs) : String := p.timeline.getD "1 month"

/-- The `timeline_weeks` lookup of `_organize_into_modules`, with the
`.get(timeline, 4)` default. -/
def timeline_weeks (timeline : String) : Nat :=
  if timeline = "1 week" then 1
  else if timeline = "2 weeks" then 2
  else if timeline = "1 month" then 4
  else if timeline = "2 months" then 6
  else if timeline = "3 months" then 8
  else if timeline = "6+ months" then 12
  else 4

/-- The different `timeline_weeks` lookup of `_estimate_module_time`. -/
def estimate_timeline_weeks (timeline : String) : Nat :=
  if timeline = "1 week" then 1
  else if timeline = "2 weeks" then 2
  else if timeline = "1 month" then 4
  else if timeline = "2 months" then 8
  else if timeline = "3 months" then 12
  else if timeline = "6+ months" then 24
  else 4

/-- `target_modules` as computed by `_organize_into_modules`. -/
def target_modules (timeline : String) : Nat := timeline_weeks timeline

/-- `objectives_per_module = max(1, num_objectives // target_modules)` with
the two overrides of `_organize_into_modules` (force 1 when the objectives
fit, cap at 2 when there are more than twice the target). -/
def objectives_per_module (timeline : String) (num_objectives : Nat) : Nat :=
  if num_objectives ≤ target_modules timeline then 1
  else if target_modules timeline * 2 < num_objectives then 2
  else max 1 (num_objectives / target_modules timeline)

/-- `models.py` `CourseModule`. -/
structure CourseModule where
  title : String
  description : String
  estimated_time : String
  difficulty : String
  resources : List LearningResource
  learning_objectives : List String
deriving DecidableEq, Repr

/-- `_estimate_module_time(resources, timeline, total_modules)`; the
`resources` argument is unused in the source.  Both the `<= 2` branch and
the final branch of the source produce the identical f-string
`f"{weeks_per_module} weeks"`, collapsed here. -/
def _estimate_module_time (timeline : String) (total_modules : Nat) : String :=
  if max 1 (estimate_timeline_weeks timeline / total_modules) = 1 then "1 week"
  else toString (max 1 (estimate_timeline_weeks timeline / total_modules)) ++ " weeks"

/-- `_create_module(objectives, resources, module_number, prefs, timeline,
target_modules)`; the `prefs` argument is unused in the source. -/
def _create_module (objectives : List String) (resources : List LearningResource)
    (module_number : Nat) (timeline : String) (tm : Nat) : CourseModule :=
  { title :=
      if module_number = 1 then "Module " ++ toString module_number ++ ": Fundamentals"
      else if module_number ≤ 2 then "Module " ++ toString module_number ++ ": Core Concepts"
      else "Module " ++ toString module_number ++ ": Advanced Applications"
    description :=
      (if module_number = 1 then "Build a solid foundation"
       else if module_number ≤ 2 then "Develop practical skills"
       else "Master advanced techniques")
        ++ " by learning: " ++ String.intercalate ", " objectives
    estimated_time := _estimate_module_time timeline tm
    difficulty :=
      if module_number = 1 then "Beginner"
      else if module_number ≤ 2 then "Intermediate"
      else "Advanced"
    resources := resources
    learning_objectives := objectives }

/-- The accumulation loop of `_organize_into_modules`: `curObjs`/`curRes`
hold the running module and `done` counts the modules already created; a
module is closed once it holds `opm` objectives or the input is exhausted. -/
def organizeAux (opm : Nat) (timeline : String) (tm : Nat) :
    List String → List LearningResource → Nat → List ObjectiveResult → List CourseModule
  | _, _, _, [] => []
  | curObjs, curRes, done, [o] =>
    [_create_module (curObjs ++ [o.objective]) (curRes ++ o.resources) (done + 1)
      timeline tm]
  | curObjs, curRes, done, o :: rest =>
    if opm ≤ (curObjs ++ [o.objective]).length then
      _create_module (curObjs ++ [o.objective]) (curRes ++ o.resources) (done + 1)
          timeline tm
        :: organizeAux opm timeline tm [] [] (done + 1) rest
    else organizeAux opm timeline tm (curObjs ++ [o.objective]) (curRes ++ o.resources)
      done rest

/-- `_organize_into_modules(objective_results, prefs)`. -/
def _organize_into_modules (objective_results : List ObjectiveResult) (prefs : Prefs) :
    List CourseModule :=
  organizeAux (objectives_per_module prefs.getTimeline objective_results.length)
    prefs.getTimeline (target_modules prefs.getTimeline) [] [] 0 objective_results

lemma organizeAux_objectives (opm : Nat) (timeline : String) (tm : Nat)
    (l : List ObjectiveResult) :
    ∀ (curObjs : List String) (curRes : List LearningResource) (done : Nat),
      l ≠ [] →
      ((organizeAux opm timeline tm curObjs curRes done l).map
        (fun m => m.learning_objectives)).flatten =
        curObjs ++ l.map (fun o => o.objective) := by
  induction l with
  | nil => intro _ _ _ h; exact absurd rfl h
  | cons o rest ih =>
    intro curObjs curRes done _
    cases rest with
    | nil =>
      show ([_create_module (curObjs ++ [o.objective]) (curRes ++ o.resources) (done + 1)
          timeline tm].map (fun m => m.learning_objectives)).flatten = _
      simp [_create_module]
    | cons o2 rest2 =>
      show (((if opm ≤ (curObjs ++ [o.objective]).length then
          _create_module (curObjs ++ [o.objective]) (curRes ++ o.resources) (done + 1)
              timeline tm
            :: organizeAux opm timeline tm [] [] (done + 1) (o2 :: rest2)
          else organizeAux opm timeline tm (curObjs ++ [o.objective])
            (curRes ++ o.resources) done (o2 :: rest2))).map
          (fun m => m.learning_objectives)).flatten = _
      by_cases h : opm ≤ (curObjs ++ [o.objective]).length
      · rw [if_pos h]
        simp only [List.map_cons, List.flatten_cons]
        rw [ih [] [] (done + 1) (by simp)]
        simp [_create_module]
      · rw [if_neg h]
        rw [ih (curObjs ++ [o.objective]) (curRes ++ o.resources) done (by simp)]
        simp

/-- C3: concatenating `learning_objectives` over the produced modules in
module order gives back exactly the input objective list — every objective
is assigned to exactly one module, exactly once, in the original order. -/
theorem C3_objective_coverage (objective_results : List ObjectiveResult) (prefs : Prefs) :
    ((_organize_into_modules objective_results prefs).map
      (fun m => m.learning_objectives)).flatten =
      objective_results.map (fun o => o.objective) := by
  cases objective_results with
  | nil => rfl
  | cons o rest =>
    exact organizeAux_objectives _ _ _ (o :: rest) [] [] 0 (by simp)

/-- Five objective results (empty resource lists), the failing input for
the module-count bound. -/
def fiveObjs : List ObjectiveResult :=
  [⟨"o1", []⟩, ⟨"o2", []⟩, ⟨"o3", []⟩, ⟨"o4", []⟩, ⟨"o5", []⟩]

/-- C2 (code bug): with 5 objectives and timeline "1 month" the lookup
gives `target_modules = 4` and `objectives_per_module = max(1, 5 // 4) = 1`
(neither override fires, since 4 < 5 ≤ 8), so the packer emits 5 modules —
more than the target its own comment says it ensures ("Ensure we don't
exceed target modules"). -/
theorem C2_module_bound_violated :
    target_modules "1 month" = 4 ∧
      objectives_per_module "1 month" 5 = 1 ∧
      (_organize_into_modules fiveObjs ⟨some "1 month"⟩).length = 5 ∧
      ¬ ((_organize_into_modules fiveObjs ⟨some "1 month"⟩).length ≤
        target_modules "1 month") := by
  refine ⟨rfl, rfl, ?_, ?_⟩
  · rfl
  · intro h
    rw [show (_organize_into_modules fiveObjs ⟨some "1 month"⟩).length = 5 from rfl] at h
    rw [show target_modules "1 month" = 4 from rfl] at h
    omega

/-- Witness for the amended C1 at the concrete duplicate pair. -/
theorem C1_dedup_first_occurrence_witness :
    ((_remove_duplicates [resA5, resA7]).map (fun r => r.url)).Nodup ∧
      ∃ s ∈ _remove_duplicates [resA5, resA7], s.url = resA7.url :=
  ⟨(C1_dedup_first_occurrence_wins [resA5, resA7]).1,
   (C1_dedup_first_occurrence_wins [resA5, resA7]).2.1 resA7 (by decide)⟩
